import Mathlib

/-!
Verification development for the pdf-squeezer repository.

The multi-strategy PDF compression orchestrator (PDFCompressor), the
parallel batch executor (ParallelCompressor) and the strategy layer are
embedded shallowly; PDF byte contents are lists of naturals, the
filesystem is an association list from path strings to contents, and
the orchestrator returns both the outcome record and the list of
filesystem operations it performs, so that atomicity properties can be
stated over intermediate filesystem states.

The CLI layer (src/pdf_squeezer/cli.py) is embedded from its source:
the post-compression exit-code decision, the argument-validation gate
and output-path resolution.
-/

namespace PdfSqueezer

/-! ## Filesystem model -/

/-- File contents: a list of bytes (sizes are list lengths). -/
abbrev Content := List Nat

/-- A filesystem: an association list from path strings to file contents. -/
abbrev FS := List (String × Content)

/-- Look up the contents stored at a path. -/
def lookupFS : FS → String → Option Content
  | [], _ => none
  | (p, c) :: rest, q => if p = q then some c else lookupFS rest q

/-- Remove any entry at the given path. -/
def removeFS : FS → String → FS
  | [], _ => []
  | (p, c) :: rest, q => if p = q then removeFS rest q else (p, c) :: removeFS rest q

/-- Create or overwrite the file at a path with the given contents. -/
def writeFS (fs : FS) (p : String) (c : Content) : FS :=
  (p, c) :: removeFS fs p

/-- Filesystem operations the orchestrator can perform: a (non-atomic)
whole-file write, and an atomic rename of one path over another. -/
inductive FSOp where
  | write (p : String) (c : Content)
  | rename (src dst : String)
deriving Repr, DecidableEq

/-- The final state after one operation.  A rename moves the source
entry over the destination (os.replace semantics). -/
def applyOp (fs : FS) : FSOp → FS
  | .write p c => writeFS fs p c
  | .rename s d =>
      match lookupFS fs s with
      | some c => writeFS (removeFS fs s) d c
      | none => fs

/-- The final state after a sequence of operations. -/
def applyOps (fs : FS) : List FSOp → FS
  | [] => fs
  | op :: rest => applyOps (applyOp fs op) rest

/-- All states observable while one operation runs.  A write is not
atomic: every prefix of the written contents is observable at the
target path.  A rename is atomic: only its final state is observable. -/
def opStates (fs : FS) : FSOp → List FS
  | .write p c => (List.range (c.length + 1)).map fun k => writeFS fs p (c.take k)
  | .rename s d => [applyOp fs (.rename s d)]

/-- All states observable while a sequence of operations runs. -/
def traceStates (fs : FS) : List FSOp → List FS
  | [] => []
  | op :: rest => opStates fs op ++ traceStates (applyOp fs op) rest

/-! ## Data model (spec §3) -/

/-- Final per-file result record produced by the orchestrator. -/
structure CompressionOutcome where
  input_path : String
  output_path : String
  original_size : Nat
  final_size : Nat
  best_strategy : String
  improved : Bool
  reduction_percent : Int
deriving Repr, DecidableEq

/-! ## Orchestrator (spec-modelled) -/

/-- Name of the library-rewrite strategy (pikepdf). -/
def pikepdfName : String := "pikepdf"

/-- Name of the external-tool strategy (ghostscript). -/
def ghostscriptName : String := "ghostscript"

/-- Modelled from the spec: the combined strategy's selection policy
(§4.1, §4.2 step 3) of the missing file
src/pdf_squeezer/core/strategies/combined_strategy.py.  Among the
sub-strategy attempts that succeeded, the one with the smallest output
wins; on an exact size tie the library-rewrite (pikepdf) result is
preferred; the winning sub-strategy's own name is surfaced. -/
def selectBest (pike gs : Option Content) : Option (String × Content) :=
  match pike, gs with
  | some a, some b =>
      if b.length < a.length then some (ghostscriptName, b) else some (pikepdfName, a)
  | some a, none => some (pikepdfName, a)
  | none, some b => some (ghostscriptName, b)
  | none, none => none

/-- Modelled from the spec: the reduction-percent field (§3, §4.2 step 4)
of the missing file src/pdf_squeezer/core/compressor.py.  Defined as 0
when the original size is 0; the rounded percentage when the final size
is an improvement; and set to 0 by step 4 when no size win occurred. -/
def reductionPercent (osz fsz : Nat) : Int :=
  if osz = 0 then 0
  else if fsz < osz then round ((100 : ℚ) * (1 - (fsz : ℚ) / (osz : ℚ)))
  else 0

/-- The sibling temporary path used by the atomic replace discipline. -/
def tmpPath (output : String) : String := output ++ ".tmp"

/-- Write contents to the destination with the atomic replace
discipline (§4.2 step 5): write a sibling temporary file, then rename
it over the destination. -/
def atomicWriteOps (output : String) (c : Content) : List FSOp :=
  [.write (tmpPath output) c, .rename (tmpPath output) output]

/-- Modelled from the spec: PDFCompressor.compress (§4.2) of the
missing file src/pdf_squeezer/core/compressor.py.  The two
sub-strategy attempts are oracles from input contents to an optional
output artifact (none = the strategy failed).  Returns the outcome
record and the filesystem operations performed. -/
def compress (fs : FS) (input_path output_path : String)
    (pikeAttempt gsAttempt : Content → Option Content) :
    CompressionOutcome × List FSOp :=
  match lookupFS fs input_path with
  | none =>
      ({ input_path := input_path, output_path := output_path,
         original_size := 0, final_size := 0, best_strategy := "error",
         improved := false, reduction_percent := 0 }, [])
  | some orig =>
      let osz := orig.length
      match selectBest (pikeAttempt orig) (gsAttempt orig) with
      | some w =>
          let fsz := w.2.length
          ({ input_path := input_path, output_path := output_path,
             original_size := osz, final_size := fsz, best_strategy := w.1,
             improved := decide (fsz < osz),
             reduction_percent := reductionPercent osz fsz },
           atomicWriteOps output_path w.2)
      | none =>
          ({ input_path := input_path, output_path := output_path,
             original_size := osz, final_size := osz, best_strategy := "none",
             improved := false, reduction_percent := 0 },
           if output_path = input_path then [] else atomicWriteOps output_path orig)

/-! ## Parallel batch executor (spec-modelled) -/

/-- A batch task: an (input path, output path) pair. -/
structure BatchTask where
  input_path : String
  output_path : String
deriving Repr, DecidableEq

/-- Modelled from the spec: the error-marked outcome the executor
builds when a task suffers an unexpected internal fault (§4.3
Isolation) — part of the missing file src/pdf_squeezer/parallel/executor.py. -/
def faultOutcome (t : BatchTask) : CompressionOutcome :=
  { input_path := t.input_path, output_path := t.output_path,
    original_size := 0, final_size := 0, best_strategy := "error",
    improved := false, reduction_percent := 0 }

/-- Modelled from the spec: the per-task boundary of the executor
(§4.3 Isolation) of the missing file
src/pdf_squeezer/parallel/executor.py.  `behave i` is the behaviour of
compressing the i-th task: some outcome when the compression call
returns, none when it raises an unexpected internal fault, which the
boundary catches and converts into an error-marked outcome. -/
def guardedRun (tasks : List BatchTask) (behave : Nat → Option CompressionOutcome)
    (i : Nat) : CompressionOutcome :=
  match behave i with
  | some o => o
  | none => faultOutcome (tasks.getD i ⟨"", ""⟩)

/-- Write completed outcomes into their submission-index slots, in
completion order (§9: index-addressed result slots). -/
def fillSlots (run : Nat → CompressionOutcome) :
    List Nat → List (Option CompressionOutcome) → List (Option CompressionOutcome)
  | [], slots => slots
  | i :: rest, slots => fillSlots run rest (slots.set i (some (run i)))

/-- Modelled from the spec: ParallelCompressor.compress_batch (§4.3)
of the missing file src/pdf_squeezer/parallel/executor.py.  The
nondeterministic completion order of the worker pool is a parameter:
`order` lists the task indices in the order the workers finish them.
The first component is the aggregate result buffer (one slot per
submission index); the second is the sequence of outcomes passed to
the on_complete callback, one invocation per completion. -/
def compress_batch (tasks : List BatchTask)
    (behave : Nat → Option CompressionOutcome) (order : List Nat) :
    List (Option CompressionOutcome) × List CompressionOutcome :=
  (fillSlots (guardedRun tasks behave) order
      (List.replicate tasks.length none),
   order.map (guardedRun tasks behave))

/-! ## CLI layer (from src/pdf_squeezer/cli.py) -/

/-- The valid quality presets (cli.py line 198). -/
def valid_qualities : List String :=
  ["screen", "ebook", "printer", "prepress", "default"]

/-- Where a run of the CLI's main command goes after the validation
gate: an early exit with a code, or on into compression. -/
inductive MainStep where
  | exit (code : Nat)
  | runCompression (quality : String)
deriving Repr, DecidableEq

/-- Python str.lower restricted to ASCII, as applied to the quality
argument (cli.py line 199). -/
def pyLower (s : String) : String := String.mk (s.data.map Char.toLower)

/-- The validation gate of main (cli.py lines 179-221): the sequence
of early-exit checks performed before any compression starts.  `files`
is the discovered file list, `missing_deps` abstracts
check_dependencies returning a non-empty list, and `confirmed`
abstracts the interactive confirmation prompt. -/
def mainGate (files : List String) (output : Option String)
    (in_place dry_run quiet : Bool) (quality : String)
    (missing_deps confirmed : Bool) : MainStep :=
  if files.isEmpty then .exit 0
  else if output.isSome && decide (1 < files.length) then .exit 1
  else if output.isSome && in_place then .exit 1
  else if dry_run && (output.isSome || in_place) then .exit 1
  else if !(valid_qualities.contains (pyLower quality)) then .exit 1
  else if missing_deps then .exit 1
  else if !dry_run && !quiet && !confirmed then .exit 0
  else .runCompression quality

/-- The post-compression exit decision of main (cli.py lines 247-249):
exit 1 when any outcome's best_strategy is the literal "error",
otherwise fall through to a normal exit 0. -/
def mainExitCode (outcomes : List CompressionOutcome) : Nat :=
  if outcomes.any (fun o => o.best_strategy == "error") then 1 else 0

/-- A pathlib-style path: its components, root-first.  The last
component is the name. -/
abbrev PyPath := List String

/-- The final component of a path (pathlib Path.name). -/
def pathName (p : PyPath) : String := (p.getLast?).getD ""

/-- The stem of a file name (pathlib: name minus its last suffix; a
dot that is the first or the last character does not start a suffix). -/
def pyStem (s : String) : String :=
  let cs := s.data
  match cs.reverse.findIdx? (fun c => c == '.') with
  | none => s
  | some k =>
      let i := cs.length - 1 - k
      if 0 < i ∧ i < cs.length - 1 then String.mk (cs.take i) else s

/-- resolve_output_path (cli.py lines 329-342): explicit output wins;
then in-place returns the input; then an output directory receives
<stem>.compressed.pdf; otherwise <stem>.compressed.pdf goes next to
the input. -/
def resolve_output_path (input : PyPath) (output : Option PyPath)
    (output_dir : Option PyPath) (in_place : Bool) : PyPath :=
  match output with
  | some o => o
  | none =>
      if in_place then input
      else
        match output_dir with
        | some d => d ++ [pyStem (pathName input) ++ ".compressed.pdf"]
        | none => input.dropLast ++ [pyStem (pathName input) ++ ".compressed.pdf"]

/-! ## Filesystem lemmas -/

theorem lookupFS_removeFS_ne (fs : FS) (p q : String) (h : p ≠ q) :
    lookupFS (removeFS fs p) q = lookupFS fs q := by
  induction fs with
  | nil => rfl
  | cons hd tl ih =>
      obtain ⟨a, c⟩ := hd
      by_cases h1 : a = p
      · subst h1
        simp [removeFS, lookupFS, h, ih]
      · simp [removeFS, lookupFS, h1, ih]

theorem lookupFS_writeFS_self (fs : FS) (p : String) (c : Content) :
    lookupFS (writeFS fs p c) p = some c := by
  simp [writeFS, lookupFS]

theorem lookupFS_writeFS_ne (fs : FS) (p q : String) (c : Content) (h : p ≠ q) :
    lookupFS (writeFS fs p c) q = lookupFS fs q := by
  simp [writeFS, lookupFS, h, lookupFS_removeFS_ne fs p q h]

theorem tmpPath_ne (o : String) : tmpPath o ≠ o := by
  intro h
  have h2 := congrArg String.length h
  rw [tmpPath, String.length_append] at h2
  have h3 : String.length ".tmp" = 4 := rfl
  rw [h3] at h2
  omega

theorem applyOps_atomicWriteOps (fs : FS) (o : String) (c : Content) :
    applyOps fs (atomicWriteOps o c) =
      writeFS (removeFS (writeFS fs (tmpPath o) c) (tmpPath o)) o c := by
  simp [atomicWriteOps, applyOps, applyOp, lookupFS_writeFS_self]

theorem lookupFS_applyOps_atomicWriteOps (fs : FS) (o : String) (c : Content) :
    lookupFS (applyOps fs (atomicWriteOps o c)) o = some c := by
  rw [applyOps_atomicWriteOps]
  exact lookupFS_writeFS_self _ _ _

theorem atomic_trace_mem (fs : FS) (o : String) (c : Content) :
    ∀ s ∈ traceStates fs (atomicWriteOps o c),
      lookupFS s o = lookupFS fs o ∨ lookupFS s o = some c := by
  intro s hs
  simp [atomicWriteOps, traceStates, opStates] at hs
  rcases hs with ⟨k, _, rfl⟩ | rfl
  · left
    exact lookupFS_writeFS_ne _ _ _ _ (tmpPath_ne o)
  · right
    simp [applyOp, lookupFS_writeFS_self]

/-! ## Orchestrator case equations -/

theorem compress_eq_error (fs : FS) (ip op : String)
    (pike gs : Content → Option Content) (h : lookupFS fs ip = none) :
    compress fs ip op pike gs =
      ({ input_path := ip, output_path := op, original_size := 0, final_size := 0,
         best_strategy := "error", improved := false, reduction_percent := 0 }, []) := by
  simp [compress, h]

theorem compress_eq_win (fs : FS) (ip op : String)
    (pike gs : Content → Option Content) (orig : Content) (w : String × Content)
    (h : lookupFS fs ip = some orig)
    (hw : selectBest (pike orig) (gs orig) = some w) :
    compress fs ip op pike gs =
      ({ input_path := ip, output_path := op, original_size := orig.length,
         final_size := w.2.length, best_strategy := w.1,
         improved := decide (w.2.length < orig.length),
         reduction_percent := reductionPercent orig.length w.2.length },
       atomicWriteOps op w.2) := by
  simp [compress, h, hw]

theorem compress_eq_none (fs : FS) (ip op : String)
    (pike gs : Content → Option Content) (orig : Content)
    (h : lookupFS fs ip = some orig)
    (hw : selectBest (pike orig) (gs orig) = none) :
    compress fs ip op pike gs =
      ({ input_path := ip, output_path := op, original_size := orig.length,
         final_size := orig.length, best_strategy := "none",
         improved := false, reduction_percent := 0 },
       if op = ip then [] else atomicWriteOps op orig) := by
  simp [compress, h, hw]

/-- Every result returned by the selection policy carries the name of
one of the two sub-strategies. -/
theorem selectBest_name (p g : Option Content) (w : String × Content)
    (h : selectBest p g = some w) : w.1 = pikepdfName ∨ w.1 = ghostscriptName := by
  cases p with
  | none =>
      cases g with
      | none => simp [selectBest] at h
      | some b =>
          simp only [selectBest, Option.some.injEq] at h
          subst h
          right
          rfl
  | some a =>
      cases g with
      | none =>
          simp only [selectBest, Option.some.injEq] at h
          subst h
          left
          rfl
      | some b =>
          simp only [selectBest] at h
          split_ifs at h with hlt
          · injection h with e
            subst e
            right
            rfl
          · injection h with e
            subst e
            left
            rfl

/-! ## Batch executor lemmas -/

theorem fillSlots_length (run : Nat → CompressionOutcome) :
    ∀ (order : List Nat) (slots : List (Option CompressionOutcome)),
      (fillSlots run order slots).length = slots.length := by
  intro order
  induction order with
  | nil => intro slots; rfl
  | cons j rest ih =>
      intro slots
      rw [fillSlots, ih, List.length_set]

theorem fillSlots_getElem_not_mem (run : Nat → CompressionOutcome) :
    ∀ (order : List Nat) (slots : List (Option CompressionOutcome)) (i : Nat),
      i ∉ order → (fillSlots run order slots)[i]? = slots[i]? := by
  intro order
  induction order with
  | nil => intro slots i _; rfl
  | cons j rest ih =>
      intro slots i hi
      have hrest : i ∉ rest := fun hm => hi (List.mem_cons_of_mem j hm)
      have hji : j ≠ i := fun e => hi (e ▸ List.mem_cons_self j rest)
      rw [fillSlots, ih _ _ hrest]
      exact List.getElem?_set_ne hji

theorem fillSlots_getElem_mem (run : Nat → CompressionOutcome) :
    ∀ (order : List Nat) (slots : List (Option CompressionOutcome)) (i : Nat),
      i ∈ order → i < slots.length →
      (fillSlots run order slots)[i]? = some (some (run i)) := by
  intro order
  induction order with
  | nil => intro slots i hi _; cases hi
  | cons j rest ih =>
      intro slots i hi hlen
      by_cases hm : i ∈ rest
      · rw [fillSlots]
        exact ih _ _ hm (by rw [List.length_set]; exact hlen)
      · have hij : i = j := by
          rcases List.mem_cons.mp hi with h | h
          · exact h
          · exact absurd h hm
        subst hij
        rw [fillSlots, fillSlots_getElem_not_mem run rest _ _ hm]
        exact List.getElem?_set_eq_of_lt _ hlen

/-! ## Claim theorems: PDFCompressor -/

/-- C4: when the input file cannot be read, compress produces an outcome
with best_strategy "error", final_size 0 and improved false, performs no
filesystem operation (so no output file is written and the filesystem is
unchanged); the call is a total function, so it returns instead of raising. -/
theorem compress_unreadable_input (fs : FS) (ip op : String)
    (pike gs : Content → Option Content) (h : lookupFS fs ip = none) :
    (compress fs ip op pike gs).1.best_strategy = "error" ∧
    (compress fs ip op pike gs).1.final_size = 0 ∧
    (compress fs ip op pike gs).1.improved = false ∧
    (compress fs ip op pike gs).2 = [] ∧
    applyOps fs (compress fs ip op pike gs).2 = fs := by
  rw [compress_eq_error fs ip op pike gs h]
  exact ⟨rfl, rfl, rfl, rfl, rfl⟩

/-- Witness for C4 on a concrete empty filesystem. -/
theorem compress_unreadable_input_witness :
    (compress [] "in.pdf" "out.pdf" (fun _ => none) (fun _ => none)).1.best_strategy = "error" ∧
    (compress [] "in.pdf" "out.pdf" (fun _ => none) (fun _ => none)).2 = [] :=
  ⟨(compress_unreadable_input [] "in.pdf" "out.pdf" (fun _ => none) (fun _ => none) rfl).1,
   (compress_unreadable_input [] "in.pdf" "out.pdf" (fun _ => none) (fun _ => none) rfl).2.2.2.1⟩

/-- C3: when the input is readable but every strategy fails, compress
produces an outcome with best_strategy "none", final_size equal to the
original size, improved false, and the original contents are preserved at
the destination (copied there when the output path differs from the input
path). -/
theorem compress_total_failure (fs : FS) (ip op : String)
    (pike gs : Content → Option Content) (orig : Content)
    (h : lookupFS fs ip = some orig) (hp : pike orig = none) (hg : gs orig = none) :
    (compress fs ip op pike gs).1.best_strategy = "none" ∧
    (compress fs ip op pike gs).1.final_size = orig.length ∧
    (compress fs ip op pike gs).1.original_size = orig.length ∧
    (compress fs ip op pike gs).1.improved = false ∧
    lookupFS (applyOps fs (compress fs ip op pike gs).2) op = some orig := by
  have hw : selectBest (pike orig) (gs orig) = none := by
    simp [selectBest, hp, hg]
  rw [compress_eq_none fs ip op pike gs orig h hw]
  refine ⟨rfl, rfl, rfl, rfl, ?_⟩
  show lookupFS (applyOps fs (if op = ip then [] else atomicWriteOps op orig)) op = some orig
  by_cases e : op = ip
  · rw [if_pos e, show applyOps fs [] = fs from rfl, e]
    exact h
  · rw [if_neg e]
    exact lookupFS_applyOps_atomicWriteOps fs op orig

/-- Witness for C3 on a concrete run where both strategies fail and the
output path differs from the input path. -/
theorem compress_total_failure_witness :
    (compress [("in.pdf", [1, 2, 3])] "in.pdf" "out.pdf" (fun _ => none)
        (fun _ => none)).1.best_strategy = "none" ∧
    lookupFS (applyOps [("in.pdf", [1, 2, 3])]
        (compress [("in.pdf", [1, 2, 3])] "in.pdf" "out.pdf" (fun _ => none)
          (fun _ => none)).2) "out.pdf" = some [1, 2, 3] :=
  ⟨(compress_total_failure [("in.pdf", [1, 2, 3])] "in.pdf" "out.pdf" (fun _ => none)
      (fun _ => none) [1, 2, 3] (by decide) rfl rfl).1,
   (compress_total_failure [("in.pdf", [1, 2, 3])] "in.pdf" "out.pdf" (fun _ => none)
      (fun _ => none) [1, 2, 3] (by decide) rfl rfl).2.2.2.2⟩

/-- C1 (amended): for every outcome produced by compress,
reduction_percent is 0 when original_size is 0; it equals
round(100 * (1 - final_size / original_size)) whenever the outcome
improved (final_size < original_size); and it is set to 0 whenever the
winning size is not smaller than the original (spec step 4), which
agrees with the rounded formula only when final_size = original_size. -/
theorem compress_reduction_percent (fs : FS) (ip op : String)
    (pike gs : Content → Option Content) :
    ((compress fs ip op pike gs).1.original_size = 0 →
      (compress fs ip op pike gs).1.reduction_percent = 0) ∧
    ((compress fs ip op pike gs).1.final_size < (compress fs ip op pike gs).1.original_size →
      (compress fs ip op pike gs).1.reduction_percent =
        round ((100 : ℚ) *
          (1 - ((compress fs ip op pike gs).1.final_size : ℚ) /
            ((compress fs ip op pike gs).1.original_size : ℚ)))) ∧
    (¬ (compress fs ip op pike gs).1.final_size < (compress fs ip op pike gs).1.original_size →
      (compress fs ip op pike gs).1.reduction_percent = 0) := by
  cases hl : lookupFS fs ip with
  | none =>
      rw [compress_eq_error fs ip op pike gs hl]
      refine ⟨fun _ => rfl, ?_, fun _ => rfl⟩
      intro h2
      exact absurd h2 (lt_irrefl 0)
  | some orig =>
      cases hsel : selectBest (pike orig) (gs orig) with
      | none =>
          rw [compress_eq_none fs ip op pike gs orig hl hsel]
          refine ⟨fun _ => rfl, ?_, fun _ => rfl⟩
          intro h2
          exact absurd h2 (lt_irrefl orig.length)
      | some w =>
          rw [compress_eq_win fs ip op pike gs orig w hl hsel]
          refine ⟨?_, ?_, ?_⟩
          · intro h0
            have h0' : orig.length = 0 := h0
            show reductionPercent orig.length w.2.length = 0
            simp [reductionPercent, h0']
          · intro hlt
            have hlt' : w.2.length < orig.length := hlt
            have h0 : ¬ orig.length = 0 := by omega
            show reductionPercent orig.length w.2.length =
              round ((100 : ℚ) * (1 - (w.2.length : ℚ) / (orig.length : ℚ)))
            simp [reductionPercent, h0, hlt']
          · intro hnlt
            have hnlt' : ¬ w.2.length < orig.length := hnlt
            show reductionPercent orig.length w.2.length = 0
            by_cases h0 : orig.length = 0
            · simp [reductionPercent, h0]
            · simp [reductionPercent, h0, hnlt']

/-- Witness for C1 (amended) on a concrete improved run: 4 bytes
compressed to 2 reports round(100 * (1 - 2/4)) = 50. -/
theorem compress_reduction_percent_witness :
    (compress [("in.pdf", [0, 0, 0, 0])] "in.pdf" "out.pdf" (fun _ => some [0, 0])
        (fun _ => none)).1.reduction_percent =
      round ((100 : ℚ) *
        (1 - ((compress [("in.pdf", [0, 0, 0, 0])] "in.pdf" "out.pdf" (fun _ => some [0, 0])
            (fun _ => none)).1.final_size : ℚ) /
          ((compress [("in.pdf", [0, 0, 0, 0])] "in.pdf" "out.pdf" (fun _ => some [0, 0])
            (fun _ => none)).1.original_size : ℚ))) :=
  (compress_reduction_percent [("in.pdf", [0, 0, 0, 0])] "in.pdf" "out.pdf"
      (fun _ => some [0, 0]) (fun _ => none)).2.1 (by decide)

/-- C1 counterexample: when both strategies only produce a larger
artifact (here 4 bytes from a 2-byte input), the winning output is still
written, final_size = 4 > original_size = 2, and reduction_percent is
set to 0, while round(100 * (1 - 4/2)) = -100, so the claimed equation
fails. -/
theorem compress_reduction_percent_cex :
    (compress [("in.pdf", [0, 0])] "in.pdf" "out.pdf" (fun _ => some [0, 0, 0, 0])
        (fun _ => none)).1.reduction_percent ≠
      round ((100 : ℚ) *
        (1 - ((compress [("in.pdf", [0, 0])] "in.pdf" "out.pdf" (fun _ => some [0, 0, 0, 0])
            (fun _ => none)).1.final_size : ℚ) /
          ((compress [("in.pdf", [0, 0])] "in.pdf" "out.pdf" (fun _ => some [0, 0, 0, 0])
            (fun _ => none)).1.original_size : ℚ))) := by
  intro hEq
  rw [show (compress [("in.pdf", [0, 0])] "in.pdf" "out.pdf" (fun _ => some [0, 0, 0, 0])
        (fun _ => none)).1.reduction_percent = 0 by decide,
    show (compress [("in.pdf", [0, 0])] "in.pdf" "out.pdf" (fun _ => some [0, 0, 0, 0])
        (fun _ => none)).1.final_size = 4 by decide,
    show (compress [("in.pdf", [0, 0])] "in.pdf" "out.pdf" (fun _ => some [0, 0, 0, 0])
        (fun _ => none)).1.original_size = 2 by decide,
    round_eq] at hEq
  norm_num at hEq

/-- C2: when at least one strategy attempt succeeds, the surfaced winner
is a successful attempt of minimal size (its size bounds both successful
attempts and is attained by one of them, whose own name is surfaced); an
exact size tie between the two prefers the library-rewrite (pikepdf)
strategy; and the surfaced best_strategy is never the literal
"combined". -/
theorem compress_selection (fs : FS) (ip op : String)
    (pike gs : Content → Option Content) (orig : Content)
    (h : lookupFS fs ip = some orig)
    (hs : pike orig ≠ none ∨ gs orig ≠ none) :
    (∀ a, pike orig = some a → (compress fs ip op pike gs).1.final_size ≤ a.length) ∧
    (∀ b, gs orig = some b → (compress fs ip op pike gs).1.final_size ≤ b.length) ∧
    ((∃ a, pike orig = some a ∧ (compress fs ip op pike gs).1.final_size = a.length ∧
        (compress fs ip op pike gs).1.best_strategy = pikepdfName) ∨
      (∃ b, gs orig = some b ∧ (compress fs ip op pike gs).1.final_size = b.length ∧
        (compress fs ip op pike gs).1.best_strategy = ghostscriptName)) ∧
    (∀ a b, pike orig = some a → gs orig = some b → a.length = b.length →
      (compress fs ip op pike gs).1.best_strategy = pikepdfName) ∧
    (compress fs ip op pike gs).1.best_strategy ≠ "combined" := by
  cases hp : pike orig with
  | none =>
      cases hg : gs orig with
      | none =>
          rcases hs with hs | hs
          · exact absurd hp hs
          · exact absurd hg hs
      | some b =>
          have hw : selectBest (pike orig) (gs orig) = some (ghostscriptName, b) := by
            simp [selectBest, hp, hg]
          rw [compress_eq_win fs ip op pike gs orig (ghostscriptName, b) h hw]
          refine ⟨?_, ?_, ?_, ?_, ?_⟩
          · intro a ha
            exact Option.noConfusion ha
          · intro b' hb
            injection hb with e
            subst e
            exact Nat.le_refl _
          · right
            exact ⟨b, rfl, rfl, rfl⟩
          · intro a b' ha _ _
            exact Option.noConfusion ha
          · intro hcon
            exact absurd (show ghostscriptName = "combined" from hcon) (by decide)
  | some a =>
      cases hg : gs orig with
      | none =>
          have hw : selectBest (pike orig) (gs orig) = some (pikepdfName, a) := by
            simp [selectBest, hp, hg]
          rw [compress_eq_win fs ip op pike gs orig (pikepdfName, a) h hw]
          refine ⟨?_, ?_, ?_, ?_, ?_⟩
          · intro a' ha
            injection ha with e
            subst e
            exact Nat.le_refl _
          · intro b hb
            exact Option.noConfusion hb
          · left
            exact ⟨a, rfl, rfl, rfl⟩
          · intro a' b ha hb _
            exact Option.noConfusion hb
          · intro hcon
            exact absurd (show pikepdfName = "combined" from hcon) (by decide)
      | some b =>
          by_cases hlt : b.length < a.length
          · have hw : selectBest (pike orig) (gs orig) = some (ghostscriptName, b) := by
              simp [selectBest, hp, hg, hlt]
            rw [compress_eq_win fs ip op pike gs orig (ghostscriptName, b) h hw]
            refine ⟨?_, ?_, ?_, ?_, ?_⟩
            · intro a' ha
              injection ha with e
              subst e
              exact Nat.le_of_lt hlt
            · intro b' hb
              injection hb with e
              subst e
              exact Nat.le_refl _
            · right
              exact ⟨b, rfl, rfl, rfl⟩
            · intro a' b' ha hb heq
              injection ha with ea
              injection hb with eb
              subst ea
              subst eb
              exact absurd heq (by omega)
            · intro hcon
              exact absurd (show ghostscriptName = "combined" from hcon) (by decide)
          · have hw : selectBest (pike orig) (gs orig) = some (pikepdfName, a) := by
              simp [selectBest, hp, hg, hlt]
            rw [compress_eq_win fs ip op pike gs orig (pikepdfName, a) h hw]
            refine ⟨?_, ?_, ?_, ?_, ?_⟩
            · intro a' ha
              injection ha with e
              subst e
              exact Nat.le_refl _
            · intro b' hb
              injection hb with e
              subst e
              exact Nat.le_of_not_lt hlt
            · left
              exact ⟨a, rfl, rfl, rfl⟩
            · intro a' b' _ _ _
              rfl
            · intro hcon
              exact absurd (show pikepdfName = "combined" from hcon) (by decide)

/-- Witness for C2 on a concrete tie: both strategies succeed with
3-byte outputs and the pikepdf name is surfaced. -/
theorem compress_selection_witness :
    (compress [("in.pdf", [9, 9, 9, 9, 9, 9])] "in.pdf" "out.pdf"
        (fun _ => some [0, 0, 0]) (fun _ => some [1, 1, 1])).1.best_strategy = pikepdfName :=
  (compress_selection [("in.pdf", [9, 9, 9, 9, 9, 9])] "in.pdf" "out.pdf"
      (fun _ => some [0, 0, 0]) (fun _ => some [1, 1, 1]) [9, 9, 9, 9, 9, 9]
      (by decide) (Or.inl (by decide))).2.2.2.1 [0, 0, 0] [1, 1, 1] rfl rfl rfl

/-- C7: the destination is never observed partially written: in every
filesystem state observable while compress runs (including every
intermediate state of the non-atomic temporary-file write), the
destination path holds either exactly its contents from before the call
or exactly the final contents, because the artifact goes to a sibling
temporary file that is then atomically renamed over the destination;
and on the input-error path no operation is performed at all, so the
filesystem is left exactly as it was. -/
theorem compress_atomic_replace (fs : FS) (ip op : String)
    (pike gs : Content → Option Content) :
    (∀ s ∈ traceStates fs (compress fs ip op pike gs).2,
      lookupFS s op = lookupFS fs op ∨
      lookupFS s op = lookupFS (applyOps fs (compress fs ip op pike gs).2) op) ∧
    ((compress fs ip op pike gs).1.best_strategy = "error" →
      applyOps fs (compress fs ip op pike gs).2 = fs) := by
  cases hl : lookupFS fs ip with
  | none =>
      rw [compress_eq_error fs ip op pike gs hl]
      exact ⟨fun s hs => absurd hs (List.not_mem_nil s), fun _ => rfl⟩
  | some orig =>
      cases hsel : selectBest (pike orig) (gs orig) with
      | some w =>
          rw [compress_eq_win fs ip op pike gs orig w hl hsel]
          constructor
          · intro s hs
            rcases atomic_trace_mem fs op w.2 s hs with hcase | hcase
            · exact Or.inl hcase
            · refine Or.inr ?_
              show lookupFS s op = lookupFS (applyOps fs (atomicWriteOps op w.2)) op
              rw [hcase, lookupFS_applyOps_atomicWriteOps fs op w.2]
          · intro he
            rcases selectBest_name (pike orig) (gs orig) w hsel with e | e
            · have he' : w.1 = "error" := he
              rw [e] at he'
              exact absurd he' (by decide)
            · have he' : w.1 = "error" := he
              rw [e] at he'
              exact absurd he' (by decide)
      | none =>
          by_cases e : op = ip
          · have heq : compress fs ip op pike gs =
                ({ input_path := ip, output_path := op, original_size := orig.length,
                   final_size := orig.length, best_strategy := "none",
                   improved := false, reduction_percent := 0 }, []) := by
              rw [compress_eq_none fs ip op pike gs orig hl hsel, if_pos e]
            rw [heq]
            exact ⟨fun s hs => absurd hs (List.not_mem_nil s),
              fun he => absurd (show ("none" : String) = "error" from he) (by decide)⟩
          · have heq : compress fs ip op pike gs =
                ({ input_path := ip, output_path := op, original_size := orig.length,
                   final_size := orig.length, best_strategy := "none",
                   improved := false, reduction_percent := 0 },
                 atomicWriteOps op orig) := by
              rw [compress_eq_none fs ip op pike gs orig hl hsel, if_neg e]
            rw [heq]
            constructor
            · intro s hs
              rcases atomic_trace_mem fs op orig s hs with hcase | hcase
              · exact Or.inl hcase
              · refine Or.inr ?_
                show lookupFS s op = lookupFS (applyOps fs (atomicWriteOps op orig)) op
                rw [hcase, lookupFS_applyOps_atomicWriteOps fs op orig]
            · intro he
              exact absurd (show ("none" : String) = "error" from he) (by decide)

/-- Witness for C7: in a concrete successful run, the state in which
the temporary file has been created but holds no bytes yet is an
observable trace state, and the destination there still holds its
before-call contents (or the final contents). -/
theorem compress_atomic_replace_witness :
    (writeFS [("in", [7])] (tmpPath "out") [] ∈
        traceStates [("in", [7])]
          (compress [("in", [7])] "in" "out" (fun _ => some [5]) (fun _ => none)).2 ∧
      (lookupFS (writeFS [("in", [7])] (tmpPath "out") []) "out" =
          lookupFS [("in", [7])] "out" ∨
        lookupFS (writeFS [("in", [7])] (tmpPath "out") []) "out" =
          lookupFS (applyOps [("in", [7])]
            (compress [("in", [7])] "in" "out" (fun _ => some [5]) (fun _ => none)).2)
            "out")) ∧
    applyOps [] (compress [] "in" "out" (fun _ => some [5]) (fun _ => none)).2 = [] :=
  ⟨⟨by decide,
    (compress_atomic_replace [("in", [7])] "in" "out" (fun _ => some [5])
        (fun _ => none)).1 (writeFS [("in", [7])] (tmpPath "out") []) (by decide)⟩,
   (compress_atomic_replace [] "in" "out" (fun _ => some [5]) (fun _ => none)).2
     (by decide)⟩

/-! ## Claim theorems: ParallelCompressor -/

/-- C5: for any completion order that is a permutation of the N task
indices, compress_batch returns exactly N slots, the i-th slot holds
the outcome of compressing the i-th submitted task, the on_complete
callback fires exactly N times, and each task index completes (hence
triggers the callback) exactly once. -/
theorem compress_batch_order (tasks : List BatchTask)
    (behave : Nat → Option CompressionOutcome) (order : List Nat)
    (h : order.Perm (List.range tasks.length)) :
    (compress_batch tasks behave order).1.length = tasks.length ∧
    (∀ i, i < tasks.length →
      (compress_batch tasks behave order).1[i]? =
        some (some (guardedRun tasks behave i))) ∧
    (compress_batch tasks behave order).2.length = tasks.length ∧
    (∀ i, i < tasks.length → order.count i = 1) := by
  refine ⟨?_, ?_, ?_, ?_⟩
  · show (fillSlots (guardedRun tasks behave) order
        (List.replicate tasks.length none)).length = tasks.length
    rw [fillSlots_length, List.length_replicate]
  · intro i hi
    show (fillSlots (guardedRun tasks behave) order
        (List.replicate tasks.length none))[i]? = some (some (guardedRun tasks behave i))
    exact fillSlots_getElem_mem _ order _ i (h.mem_iff.mpr (List.mem_range.mpr hi))
      (by rw [List.length_replicate]; exact hi)
  · show (order.map (guardedRun tasks behave)).length = tasks.length
    rw [List.length_map, h.length_eq, List.length_range]
  · intro i hi
    rw [h.count_eq]
    exact List.count_eq_one_of_mem (List.nodup_range _) (List.mem_range.mpr hi)

/-- Witness for C5 on a concrete two-task batch completed in reversed
order: slot 0 still holds task 0's outcome and index 1 completes once. -/
theorem compress_batch_order_witness :
    (compress_batch [⟨"a.pdf", "a.out.pdf"⟩, ⟨"b.pdf", "b.out.pdf"⟩]
        (fun _ => some (faultOutcome ⟨"x", "y"⟩)) [1, 0]).1[0]? =
      some (some (guardedRun [⟨"a.pdf", "a.out.pdf"⟩, ⟨"b.pdf", "b.out.pdf"⟩]
        (fun _ => some (faultOutcome ⟨"x", "y"⟩)) 0)) ∧
    ([1, 0] : List Nat).count 1 = 1 :=
  ⟨(compress_batch_order [⟨"a.pdf", "a.out.pdf"⟩, ⟨"b.pdf", "b.out.pdf"⟩]
      (fun _ => some (faultOutcome ⟨"x", "y"⟩)) [1, 0] (by decide)).2.1 0 (by decide),
   (compress_batch_order [⟨"a.pdf", "a.out.pdf"⟩, ⟨"b.pdf", "b.out.pdf"⟩]
      (fun _ => some (faultOutcome ⟨"x", "y"⟩)) [1, 0] (by decide)).2.2.2 1 (by decide)⟩

/-- C6: when exactly one task index k faults (its behaviour is none and
every other task returns its normal outcome), the batch yields the
error-marked fault outcome in slot k alone, every other slot holds that
task's normal, non-error outcome, and — compress_batch being a total
function — the batch call returns rather than raising. -/
theorem compress_batch_fault_isolation (tasks : List BatchTask)
    (normal : Nat → CompressionOutcome) (k : Nat) (order : List Nat)
    (hk : k < tasks.length) (hord : order.Perm (List.range tasks.length))
    (hok : ∀ i, (normal i).best_strategy ≠ "error") :
    ((compress_batch tasks (fun i => if i = k then none else some (normal i)) order).1[k]? =
        some (some (faultOutcome (tasks.getD k ⟨"", ""⟩))) ∧
      (faultOutcome (tasks.getD k ⟨"", ""⟩)).best_strategy = "error") ∧
    (∀ j, j < tasks.length → j ≠ k →
      (compress_batch tasks (fun i => if i = k then none else some (normal i)) order).1[j]? =
          some (some (normal j)) ∧
        (normal j).best_strategy ≠ "error") := by
  constructor
  · constructor
    · show (fillSlots (guardedRun tasks fun i => if i = k then none else some (normal i)) order
          (List.replicate tasks.length none))[k]? = _
      rw [fillSlots_getElem_mem _ order _ k (hord.mem_iff.mpr (List.mem_range.mpr hk))
        (by rw [List.length_replicate]; exact hk)]
      simp [guardedRun]
    · rfl
  · intro j hj hjk
    refine ⟨?_, hok j⟩
    show (fillSlots (guardedRun tasks fun i => if i = k then none else some (normal i)) order
        (List.replicate tasks.length none))[j]? = _
    rw [fillSlots_getElem_mem _ order _ j (hord.mem_iff.mpr (List.mem_range.mpr hj))
      (by rw [List.length_replicate]; exact hj)]
    simp [guardedRun, hjk]

/-- Witness for C6 on a concrete two-task batch where task 0 faults:
slot 0 carries the error-marked outcome and slot 1 the normal one. -/
theorem compress_batch_fault_isolation_witness :
    (compress_batch [⟨"a.pdf", "a.out.pdf"⟩, ⟨"b.pdf", "b.out.pdf"⟩]
        (fun i => if i = 0 then none
          else some ⟨"b.pdf", "b.out.pdf", 10, 5, "pikepdf", true, 50⟩) [1, 0]).1[0]? =
      some (some (faultOutcome ⟨"a.pdf", "a.out.pdf"⟩)) ∧
    (compress_batch [⟨"a.pdf", "a.out.pdf"⟩, ⟨"b.pdf", "b.out.pdf"⟩]
        (fun i => if i = 0 then none
          else some ⟨"b.pdf", "b.out.pdf", 10, 5, "pikepdf", true, 50⟩) [1, 0]).1[1]? =
      some (some (⟨"b.pdf", "b.out.pdf", 10, 5, "pikepdf", true, 50⟩ : CompressionOutcome)) :=
  ⟨(compress_batch_fault_isolation [⟨"a.pdf", "a.out.pdf"⟩, ⟨"b.pdf", "b.out.pdf"⟩]
      (fun _ => ⟨"b.pdf", "b.out.pdf", 10, 5, "pikepdf", true, 50⟩) 0 [1, 0]
      (by decide) (by decide) (fun _ => show ("pikepdf" : String) ≠ "error" by decide)).1.1,
   ((compress_batch_fault_isolation [⟨"a.pdf", "a.out.pdf"⟩, ⟨"b.pdf", "b.out.pdf"⟩]
      (fun _ => ⟨"b.pdf", "b.out.pdf", 10, 5, "pikepdf", true, 50⟩) 0 [1, 0]
      (by decide) (by decide) (fun _ => show ("pikepdf" : String) ≠ "error" by decide)).2 1 (by decide) (by decide)).1⟩

/-! ## Claim theorems: CLI layer -/

/-- C8: after compression has run, the CLI exits non-zero exactly when
some returned outcome's best_strategy is the literal "error"; any other
marker (including the total-failure marker "none") leaves the exit code
at 0. -/
theorem cli_exit_iff_error (outcomes : List CompressionOutcome) :
    mainExitCode outcomes ≠ 0 ↔ ∃ o ∈ outcomes, o.best_strategy = "error" := by
  rw [mainExitCode]
  by_cases h : outcomes.any (fun o => o.best_strategy == "error") = true
  · rw [if_pos h]
    simp only [List.any_eq_true, beq_iff_eq] at h
    exact ⟨fun _ => h, fun _ => one_ne_zero⟩
  · rw [if_neg h]
    simp only [List.any_eq_true, beq_iff_eq] at h
    constructor
    · intro h0
      exact absurd rfl h0
    · intro hex
      exact absurd hex h

/-- Witness for C8: a batch containing one error-marked outcome makes
the CLI exit non-zero. -/
theorem cli_exit_iff_error_witness :
    mainExitCode [faultOutcome ⟨"a.pdf", "b.pdf"⟩] ≠ 0 :=
  (cli_exit_iff_error [faultOutcome ⟨"a.pdf", "b.pdf"⟩]).mpr
    ⟨faultOutcome ⟨"a.pdf", "b.pdf"⟩, by decide, by decide⟩

/-- C9 counterexample: when no PDF files are discovered, main exits 0
before the quality check, so an invalid quality preset ("bogus",
lowercase form outside the valid set) is not rejected with exit code 1. -/
theorem cli_invalid_quality_cex :
    mainGate [] none false false false "bogus" false false = MainStep.exit 0 ∧
    valid_qualities.contains (pyLower "bogus") = false ∧
    MainStep.exit 0 ≠ MainStep.exit 1 := by
  refine ⟨rfl, by decide, by decide⟩

/-- C9 (amended): once the earlier gates pass (some files were
discovered and the option-conflict checks for the output, in-place and
dry-run flags fail to trigger), a quality preset whose lowercase form is outside
{screen, ebook, printer, prepress, default} makes main exit with code 1
before any compression starts; and in every run whatsoever, reaching
compression implies the quality's lowercase form is in the valid set,
so no invalid value ever reaches the core. -/
theorem cli_invalid_quality_rejected (files : List String) (output : Option String)
    (in_place dry_run quiet : Bool) (quality : String) (missing_deps confirmed : Bool)
    (hne : files.isEmpty = false)
    (h1 : (output.isSome && decide (1 < files.length)) = false)
    (h2 : (output.isSome && in_place) = false)
    (h3 : (dry_run && (output.isSome || in_place)) = false)
    (hq : valid_qualities.contains (pyLower quality) = false) :
    mainGate files output in_place dry_run quiet quality missing_deps confirmed =
      MainStep.exit 1 ∧
    (∀ (fs2 : List String) (o2 : Option String) (i2 d2 q2 : Bool) (qual2 : String)
        (m2 c2 : Bool) (q0 : String),
      mainGate fs2 o2 i2 d2 q2 qual2 m2 c2 = MainStep.runCompression q0 →
      valid_qualities.contains (pyLower q0) = true) := by
  constructor
  · rw [mainGate]
    rw [if_neg (by rw [hne]; exact Bool.false_ne_true), if_neg (by rw [h1]; exact Bool.false_ne_true),
      if_neg (by rw [h2]; exact Bool.false_ne_true), if_neg (by rw [h3]; exact Bool.false_ne_true),
      if_pos (by rw [hq]; rfl)]
  · intro fs2 o2 i2 d2 q2 qual2 m2 c2 q0 hrun
    rw [mainGate] at hrun
    split_ifs at hrun with g1 g2 g3 g4 g5 g6 g7
    cases hrun
    rcases Bool.eq_false_or_eq_true (valid_qualities.contains (pyLower qual2)) with hc | hc
    · exact hc
    · exact absurd (by rw [hc]; rfl) g5

/-- Witness for C9 (amended): a run with one discovered file, no
conflicting options and quality "bogus" exits with code 1. -/
theorem cli_invalid_quality_rejected_witness :
    mainGate ["a.pdf"] none false false false "bogus" false false = MainStep.exit 1 :=
  (cli_invalid_quality_rejected ["a.pdf"] none false false false "bogus" false false
    rfl rfl rfl rfl (by decide)).1

/-- C10: resolve_output_path follows the fixed precedence of cli.py: an
explicit output path is returned as given; otherwise in-place mode
returns the input path; otherwise an output directory yields
output_dir/<stem>.compressed.pdf; otherwise <stem>.compressed.pdf is
placed in the input's own directory.  Being a pure function of its
arguments, it is deterministic. -/
theorem cli_resolve_output_path_cases :
    (∀ (input o : PyPath) (od : Option PyPath) (ip : Bool),
      resolve_output_path input (some o) od ip = o) ∧
    (∀ (input : PyPath) (od : Option PyPath),
      resolve_output_path input none od true = input) ∧
    (∀ (input d : PyPath),
      resolve_output_path input none (some d) false =
        d ++ [pyStem (pathName input) ++ ".compressed.pdf"]) ∧
    (∀ input : PyPath,
      resolve_output_path input none none false =
        input.dropLast ++ [pyStem (pathName input) ++ ".compressed.pdf"]) :=
  ⟨fun _ _ _ _ => rfl, fun _ _ => rfl, fun _ _ => rfl, fun _ => rfl⟩

/-- Witness for C10 at a concrete input path with no options set: the
sibling <stem>.compressed.pdf is produced. -/
theorem cli_resolve_output_path_cases_witness :
    resolve_output_path ["docs", "a.pdf"] none none false = ["docs", "a.compressed.pdf"] := by
  rw [cli_resolve_output_path_cases.2.2.2 ["docs", "a.pdf"]]
  decide

end PdfSqueezer
